import Mathlib

/-
Verification of the Document Ingestion & Prompting Pipeline of `app.py`
(KIHS report summarizer demo).

Modelling conventions:
  * Python strings are modelled as `List Char` (a Python `str` is a sequence
    of Unicode code points; `len`, slicing and concatenation match
    `List.length`, `List.take` and `++`).
  * Fallible calls are modelled with `Option`/`Except`-valued outcomes.
  * `str.strip()` is modelled over the ASCII whitespace class, which is the
    class relevant to the text the pipeline manipulates.
-/

/-- The whitespace class of Python `str.strip()` (ASCII part). -/


def pyIsSpace (c : Char) : Bool :=
  c = ' ' || c = '\t' || c = '\n' || c = '\r' || c = '\x0b' || c = '\x0c'

/-- Python `str.strip()`: drop leading and trailing whitespace.
`List.rdropWhile p l = (l.reverse.dropWhile p).reverse` is exactly the
right-hand strip. -/
def pyStrip (l : List Char) : List Char :=
  List.rdropWhile pyIsSpace (List.dropWhile pyIsSpace l)

/-- One pass of Python `t.replace("\n\n\n", "\n\n")`: scan left to right and
replace non-overlapping occurrences of three newlines by two. -/
def collapseOnce : List Char → List Char
  | a :: b :: c :: rest =>
    if a = '\n' && b = '\n' && c = '\n' then
      '\n' :: '\n' :: collapseOnce rest
    else
      a :: collapseOnce (b :: c :: rest)
  | l => l

/-- Python `"\n\n\n" in t`: the string contains three consecutive newlines. -/
def hasTriple : List Char → Bool
  | a :: b :: c :: rest => (a = '\n' && b = '\n' && c = '\n') || hasTriple (b :: c :: rest)
  | _ => false

/-- The `while "\n\n\n" in t: t = t.replace("\n\n\n", "\n\n")` loop of
`normalize_text`, with explicit fuel.  Each iteration strictly shrinks the
string (`collapseOnce_length_lt`), so fuel `t.length` is always enough; see
`hasTriple_collapseNewlines`. -/
def collapseLoopFuel : Nat → List Char → List Char
  | 0, t => t
  | fuel + 1, t => if hasTriple t then collapseLoopFuel fuel (collapseOnce t) else t

/-- The fully applied collapse loop of `normalize_text` (source lines 153-154). -/
def collapseNewlines (t : List Char) : List Char :=
  collapseLoopFuel t.length t

/-- `normalize_text` (source lines 151-155): replace each carriage return by a
newline, collapse runs of three or more newlines to two, and strip.
(`text or ""` is the identity on the `List Char` model: the empty string is
mapped to the empty string anyway.) -/
def normalize_text (text : List Char) : List Char :=
  pyStrip (collapseNewlines (text.map fun c => if c = '\r' then '\n' else c))

/-- The fixed truncation marker appended by `trim_text`. -/
def TRIM_MARKER : List Char :=
  String.toList "\n\n[...입력 길이 제한으로 일부 생략됨...]"

/-- `trim_text` (source lines 158-161). -/
def trim_text (text : List Char) (max_chars : Nat) : List Char :=
  if text.length ≤ max_chars then text
  else text.take max_chars ++ TRIM_MARKER

-- ============================================================
-- Collapsing a pure newline run: 3 or more newlines become exactly 2
-- ============================================================

/-- The length of a pure newline run after one replace pass. -/
def collapseCount : Nat → Nat
  | k + 3 => 2 + collapseCount k
  | k => k

-- ============================================================
-- Text Extractor (extract_text_from_pdf, source lines 134-148)
-- ============================================================

/-- Outcome of `reader.pages[i].extract_text()` for one page:
`ok t` = returned the string `t`, `ok none` = returned `None`
(handled by `or ""`), `err` = raised (handled by `except: t = ""`). -/
inductive PageResult where
  | ok (t : Option (List Char))
  | err
deriving DecidableEq

/-- The raw per-page text before stripping: `extract_text() or ""` with a
raising page degraded to `""`. -/
def pageRaw : PageResult → List Char
  | .ok (some t) => t
  | .ok none => []
  | .err => []

/-- The per-page text `t` after `t = t.strip()`. -/
def pageText (p : PageResult) : List Char :=
  pyStrip (pageRaw p)

/-- `f"[PAGE {i+1}]\n"`, the page marker prefix for 0-based index `i`. -/
def pageMark (i : Nat) : List Char :=
  String.toList "[PAGE " ++ String.toList (toString (i + 1)) ++ String.toList "]\n"

/-- The `parts` list built by the loop `for i in range(n_pages)`, starting at
page index `i`: each page with non-empty stripped text contributes
`f"[PAGE {i+1}]\n{t}"`, in page order. -/
def extract_parts (i : Nat) : List PageResult → List (List Char)
  | [] => []
  | p :: ps =>
    if pageText p = [] then extract_parts (i + 1) ps
    else (pageMark i ++ pageText p) :: extract_parts (i + 1) ps

/-- `extract_text_from_pdf` (source lines 134-148): the pair
`("\n\n".join(parts).strip(), n_pages)`. -/
def extract_text_from_pdf (pages : List PageResult) : List Char × Nat :=
  (pyStrip (List.intercalate (String.toList "\n\n") (extract_parts 0 pages)), pages.length)

/-- Spec-style reformulation of the `parts` list (§4.1 of the spec):
"concatenation of all non-empty per-page texts, each prefixed with a page
marker, in page order". -/
def extract_parts_spec (i : Nat) (pages : List PageResult) : List (List Char) :=
  (List.enumFrom i pages).filterMap fun x =>
    if pageText x.2 = [] then none else some (pageMark x.1 ++ pageText x.2)

-- ============================================================
-- Prompt templates (source lines 35-104) and builders (lines 209-257)
-- ============================================================

def PROMPT_COMMON_RULES : List Char :=
  String.toList "\n[공통 규칙]\n- 반드시 한국어로 답변하세요.\n- 당신은 \x27KIHS(한국수자원조사기술원) 보고서 기반 교육/분석 튜터\x27입니다.\n- 문서에 없는 내용은 만들지 말고, 불확실하면 \x27문서에서 확인 불가\x27라고 명시하세요.\n- 가능한 경우, 근거가 되는 문서 표현을 1~2문장으로 요약해 함께 제시하세요(직접 인용은 1문장 이내).\n- 과장 없이 간결하고 단정한 문장으로 작성하세요.\n"

def PROMPT_OPTIONS : List Char :=
  String.toList "\n[옵션]\n- 톤: 공공기관 보고서 스타일(차분, 단정, 과장 없음) + 학습자 친화(핵심→설명→정리)\n- 독자: 수자원/물관리 분야 실무자 및 연구자(초중급 포함)\n- 금지: 홍보성 표현, 감정적 표현, 근거 없는 단정, 과도한 상상\n- 용어: 한국어 용어 우선(예: water treatment plant=정수장)\n"

def PROMPT_SECTIONS_SUMMARY : List Char :=
  String.toList "\n[요약 리포트 출력 섹션]\n1) 핵심 요약 (6줄 이내)\n2) 연구 배경/문제정의 (bullet 3~6개)\n3) 방법/데이터/대상 (bullet 3~8개) — 문서에서 확인되는 범위\n4) 주요 결과/성과 (bullet 5~12개, 가능하면 수치 포함)\n5) 결론 (bullet 3~6개)\n6) 정책 시사점 (3~6개, 실행형)\n7) 기술 시사점 (3~6개, 실행형)\n8) 한계/리스크/전제 (bullet 3~8개)\n9) 다음 단계/추가 연구 질문 (3~6개)\n"

/-- `PROMPT_EDU_QA_SPEC.format(num_q=num_q)`: the template with the requested
question count substituted for the placeholder. -/
def PROMPT_EDU_QA_SPEC (num_q : Nat) : List Char :=
  String.toList "\n[교육형 Q&A 생성 규격]\n- 총 "
    ++ String.toList (toString num_q)
    ++ String.toList "개 문항을 생성.\n- 형식은 아래 고정:\n\nQ1. (질문: 개념/맥락/근거 중심)\nA1. (짧은 답: 3~5줄)\n근거(문서 기반): (문서에서 확인되는 근거를 1~2문장으로 요약)\n추가 설명: (배경 설명/오해 방지 3~6줄)\n학습 체크: (예/아니오 또는 단답형 질문 1개)\n\n- 질문 유형은 섞어서 구성:\n  (a) 핵심 개념 정의  (b) 왜 중요한가(맥락)  (c) 방법/데이터  (d) 결과 해석  (e) 한계/리스크  (f) 실무 적용\n"

def PROMPT_CHAT_SPEC : List Char :=
  String.toList "\n[추가 질의(대화) 규칙]\n- 사용자의 질문에 대해, 문서 근거를 최우선으로 답변.\n- 문서에 없는 내용은 \x27문서에서 확인 불가\x27로 처리하고, 대신 확인을 위한 질문/추가자료를 제안.\n- 답변 구조:\n  1) 결론(2~4줄)\n  2) 근거(문서 기반 bullet)\n  3) 실무/정책/기술 시사점(가능 시 bullet)\n  4) 추가 확인 질문(1~3개)\n"

def TASK_SUMMARY : List Char :=
  String.toList "\n[작업]\n업로드된 KIHS 보고서(PDF)의 내용을 바탕으로, 지정된 섹션 형식에 맞춰 요약 리포트를 작성하세요.\n"

def TASK_EDU_QA : List Char :=
  String.toList "\n[작업]\n업로드된 KIHS 보고서(PDF)의 내용을 바탕으로, 학습용 교육형 Q&A를 생성하세요.\n"

def TASK_CHAT : List Char :=
  String.toList "\n[작업]\n아래 사용자의 추가 질문에 대해, 문서 근거 중심으로 답하세요.\n"

/-- The notice appended to every file-mode prompt (source lines 371, 402, 450). -/
def FILE_MODE_NOTICE : List Char :=
  String.toList "※ 문서 텍스트 추출이 부족하여 파일 기반으로 분석합니다."

/-- The fixed scaffold of `build_prompt_summary` before the document text:
the f-string of source lines 210-219 is the concatenation
`"\n" + RULES + "\n" + OPTIONS + "\n" + SECTIONS + "\n\n" + TASK + "\n\n[문서 텍스트]\n" + doc_text + "\n"`,
then `.strip()`. -/
def SUMMARY_SCAFFOLD : List Char :=
  String.toList "\n" ++ PROMPT_COMMON_RULES ++ String.toList "\n" ++ PROMPT_OPTIONS
    ++ String.toList "\n" ++ PROMPT_SECTIONS_SUMMARY ++ String.toList "\n\n"
    ++ TASK_SUMMARY ++ String.toList "\n\n[문서 텍스트]\n"

/-- `build_prompt_summary` (source lines 209-219). -/
def build_prompt_summary (doc_text : List Char) : List Char :=
  pyStrip (SUMMARY_SCAFFOLD ++ doc_text ++ String.toList "\n")

/-- `build_prompt_edu_qa` (source lines 222-233). -/
def build_prompt_edu_qa (doc_text : List Char) (num_q : Nat) : List Char :=
  pyStrip (String.toList "\n" ++ PROMPT_COMMON_RULES ++ String.toList "\n" ++ PROMPT_OPTIONS
    ++ String.toList "\n" ++ PROMPT_EDU_QA_SPEC num_q ++ String.toList "\n\n"
    ++ TASK_EDU_QA ++ String.toList "\n\n[문서 텍스트]\n" ++ doc_text ++ String.toList "\n")

/-- One turn of the conversation transcript:
a `{"role": ..., "content": ...}` dict (source line 299). -/
structure ChatTurn where
  role : List Char
  content : List Char
deriving DecidableEq

/-- `f"{m['role']}: {m['content']}"` (source line 240). -/
def fmt_turn (m : ChatTurn) : List Char :=
  m.role ++ String.toList ": " ++ m.content

/-- `chat_history[-6:] if chat_history else []` (source line 239): the most
recent 6 turns.  (Python `l[-6:]` is `l.drop (l.length - 6)`, and on the empty
list both branches give `[]`.) -/
def last_turns (chat_history : List ChatTurn) : List ChatTurn :=
  if chat_history = [] then [] else chat_history.drop (chat_history.length - 6)

/-- `history_txt` (source line 240). -/
def history_txt (chat_history : List ChatTurn) : List Char :=
  List.intercalate (String.toList "\n") ((last_turns chat_history).map fmt_turn)

/-- `build_prompt_chat` (source lines 236-257). -/
def build_prompt_chat (doc_text : List Char) (chat_history : List ChatTurn)
    (user_q : List Char) : List Char :=
  pyStrip (String.toList "\n" ++ PROMPT_COMMON_RULES ++ String.toList "\n" ++ PROMPT_OPTIONS
    ++ String.toList "\n" ++ PROMPT_CHAT_SPEC ++ String.toList "\n\n"
    ++ TASK_CHAT ++ String.toList "\n\n[대화 기록(최근)]\n" ++ history_txt chat_history
    ++ String.toList "\n\n[사용자 질문]\n" ++ user_q
    ++ String.toList "\n\n[문서 텍스트]\n" ++ doc_text ++ String.toList "\n")

/-- The file-mode summary prompt (source lines 368-372, no `.strip()`). -/
def file_prompt_summary : List Char :=
  PROMPT_COMMON_RULES ++ String.toList "\n" ++ PROMPT_OPTIONS ++ String.toList "\n"
    ++ PROMPT_SECTIONS_SUMMARY ++ String.toList "\n\n" ++ TASK_SUMMARY
    ++ String.toList "\n\n" ++ FILE_MODE_NOTICE

/-- The file-mode educational Q&A prompt (source lines 398-403). -/
def file_prompt_edu_qa (num_q : Nat) : List Char :=
  PROMPT_COMMON_RULES ++ String.toList "\n" ++ PROMPT_OPTIONS ++ String.toList "\n"
    ++ PROMPT_EDU_QA_SPEC num_q ++ String.toList "\n\n" ++ TASK_EDU_QA
    ++ String.toList "\n\n" ++ FILE_MODE_NOTICE

/-- The file-mode chat prompt (source lines 446-451). -/
def file_prompt_chat (user_q : List Char) : List Char :=
  PROMPT_COMMON_RULES ++ String.toList "\n" ++ PROMPT_OPTIONS ++ String.toList "\n"
    ++ PROMPT_CHAT_SPEC ++ String.toList "\n\n" ++ TASK_CHAT
    ++ String.toList "\n\n[사용자 질문]\n" ++ user_q ++ String.toList "\n\n"
    ++ FILE_MODE_NOTICE

/-- The canned answer of the chat tab when neither path is available
(source line 454). -/
def CHAT_INSUFFICIENT_MSG : List Char :=
  String.toList "텍스트도 부족하고 업로드 대체 경로도 준비되지 않았습니다. (옵션/네트워크 확인)"

-- ============================================================
-- Generation Client (generate_with_retry, source lines 193-203)
-- ============================================================

/-- Observable events of `generate_with_retry`: the i-th call to
`client.models.generate_content`, and one `time.sleep(sleep_s)` of the fixed
delay `sleep_s`. -/
inductive GenEvent where
  | call (attempt : Nat)
  | delay
deriving DecidableEq

/-- The loop `for attempt in range(retries + 1)` of `generate_with_retry`,
running from attempt number `attempt` with `fuel` further attempts allowed
(`fuel = retries - attempt`).  The provider `p` gives the outcome of each
call: `.ok t` is a response whose `.text` is `t` (`none` models a `None`
text, returned as `""` by `resp.text or ""`), `.error e` is a raised
exception, recorded in `last_err`.  After a failed attempt with
`attempt < retries` the loop sleeps once, then retries; the final failure is
re-raised. -/
def gwrAux {E : Type} (p : Nat → Except E (Option (List Char))) (attempt : Nat) :
    Nat → Except E (List Char) × List GenEvent
  | 0 =>
    match p attempt with
    | .ok t => (.ok (t.getD []), [.call attempt])
    | .error e => (.error e, [.call attempt])
  | fuel + 1 =>
    match p attempt with
    | .ok t => (.ok (t.getD []), [.call attempt])
    | .error _ =>
      let r := gwrAux p (attempt + 1) fuel
      (r.1, .call attempt :: .delay :: r.2)

/-- `generate_with_retry(model, contents, retries, sleep_s)` (source lines
193-203), abstracted over the provider outcomes `p` (the pair
`(model, contents)` is fixed throughout the loop, and `sleep_s` only fixes
the length of each `.delay`).  Returns the raised-or-returned result and the
event trace. -/
def generate_with_retry {E : Type} (p : Nat → Except E (Option (List Char)))
    (retries : Nat) : Except E (List Char) × List GenEvent :=
  gwrAux p 0 retries

/-- The expected event trace: calls `a, a+1, ..., a+n` with exactly one
delay between consecutive calls and none after the last. -/
def callTrace (a : Nat) : Nat → List GenEvent
  | 0 => [.call a]
  | n + 1 => .call a :: .delay :: callTrace (a + 1) n

def isCall : GenEvent → Bool
  | .call _ => true
  | .delay => false

def countCalls (evs : List GenEvent) : Nat :=
  evs.countP isCall

-- ============================================================
-- Remote File Uploader (upload_pdf_to_gemini_file_api, source lines 167-187)
-- ============================================================

/-- An opaque handle returned by `client.files.upload`. -/
structure FileRef where
  id : Nat
deriving DecidableEq

/-- `upload_pdf_to_gemini_file_api` (source lines 167-187), modelled by its
three fallible steps:
`tmp_create_ok` — `tempfile.NamedTemporaryFile(delete=False)` creates the
temp file without raising; `tmp_write_ok` — `tmp.write(uploaded_file.getvalue())`
returns without raising (only then is `tmp_path = tmp.name` executed);
`upload_result` — `client.files.upload(path=tmp_path)` returns `some` handle
or raises (`none`, caught and converted to a `None` return).
The result is `(returned handle, temp file still exists after the call)`:
  * creation fails: nothing was created; the except-handler returns `None`.
  * creation succeeds but the write raises: the file exists on disk but
    `tmp_path` is still `None`, so the `finally` block's
    `if tmp_path and os.path.exists(tmp_path)` test is false and the file is
    NOT removed.
  * write succeeds: `tmp_path` is set, and the `finally` block removes the
    file on both the success and the upload-failure path. -/
def upload_pdf_to_gemini_file_api (tmp_create_ok tmp_write_ok : Bool)
    (upload_result : Option FileRef) : Option FileRef × Bool :=
  if tmp_create_ok = false then
    (none, false)
  else if tmp_write_ok = false then
    (none, true)
  else
    match upload_result with
    | some r => (some r, false)
    | none => (none, false)

-- ============================================================
-- Session State and Pipeline Orchestrator (source lines 290-464)
-- ============================================================

/-- The per-session state of source lines 290-299. -/
structure SessionState where
  last_uploaded : Option (List Char)
  parsed_text : List Char
  n_pages : Nat
  file_ref : Option FileRef
  chat_history : List ChatTurn
deriving DecidableEq

def MIN_TEXT_CHARS : Nat := 1200

/-- State reset on a new file name (source lines 314-319). -/
def reset_if_new (fname : List Char) (st : SessionState) : SessionState :=
  if st.last_uploaded = some fname then st
  else
    { last_uploaded := some fname, parsed_text := [], n_pages := 0,
      file_ref := none, chat_history := [] }

/-- The local-parsing step (source lines 322-332).  `pdf` is the document:
`.error` models `PdfReader`/extraction raising at document level (the state
is then left unchanged and the error shown), `.ok pages` the per-page
outcomes. -/
def parse_step (prefer_local_parse : Bool) (pdf : Except Unit (List PageResult))
    (st : SessionState) : SessionState :=
  if prefer_local_parse ∧ st.parsed_text = [] then
    match pdf with
    | .error _ => st
    | .ok pages =>
      { st with parsed_text := normalize_text (extract_text_from_pdf pages).1,
                n_pages := (extract_text_from_pdf pages).2 }
  else st

/-- The fallback-upload step (source lines 338-341).  `upload_result` is what
`upload_pdf_to_gemini_file_api` returns (`none` on failure).  The second
component records whether an upload was attempted in this rerun. -/
def upload_step (allow_file_fallback : Bool) (upload_result : Option FileRef)
    (st : SessionState) : SessionState × Bool :=
  if st.parsed_text.length < MIN_TEXT_CHARS ∧ allow_file_fallback = true
      ∧ st.file_ref = none then
    ({ st with file_ref := upload_result }, true)
  else (st, false)

/-- A generation request sent to the provider: either plain prompt text, or a
`[file_ref, prompt]` pair (source lines 365, 373). -/
inductive GenerationRequest where
  | textRequest (promptText : List Char)
  | fileRequest (fileHandle : FileRef) (promptText : List Char)
deriving DecidableEq

/-- What one user action does: issue a generation request, or report the
insufficient-input condition without any remote call. -/
inductive ActionOutcome where
  | request (r : GenerationRequest)
  | insufficient
deriving DecidableEq

/-- The summary tab's path selection (source lines 362-376). -/
def summary_action (max_chars : Nat) (st : SessionState) : ActionOutcome :=
  if st.parsed_text ≠ [] ∧ MIN_TEXT_CHARS ≤ st.parsed_text.length then
    .request (.textRequest (build_prompt_summary (trim_text st.parsed_text max_chars)))
  else
    match st.file_ref with
    | some r => .request (.fileRequest r file_prompt_summary)
    | none => .insufficient

/-- The educational Q&A tab's path selection (source lines 392-407). -/
def edu_qa_action (max_chars num_q : Nat) (st : SessionState) : ActionOutcome :=
  if st.parsed_text ≠ [] ∧ MIN_TEXT_CHARS ≤ st.parsed_text.length then
    .request (.textRequest (build_prompt_edu_qa (trim_text st.parsed_text max_chars) num_q))
  else
    match st.file_ref with
    | some r => .request (.fileRequest r (file_prompt_edu_qa num_q))
    | none => .insufficient

/-- The chat tab (source lines 429-457).  The user message is appended first
(line 431); on the no-path branch the canned guidance message is appended as
the assistant turn (lines 454-457) and no request is issued.  On the two
request branches the assistant turn is appended only after the remote call
returns, outside this model. -/
def chat_action (max_chars : Nat) (st : SessionState) (user_q : List Char) :
    SessionState × ActionOutcome :=
  let st1 := { st with chat_history := st.chat_history ++ [⟨String.toList "user", user_q⟩] }
  if st1.parsed_text ≠ [] ∧ MIN_TEXT_CHARS ≤ st1.parsed_text.length then
    (st1, .request (.textRequest
      (build_prompt_chat (trim_text st1.parsed_text max_chars) st1.chat_history user_q)))
  else
    match st1.file_ref with
    | some r => (st1, .request (.fileRequest r (file_prompt_chat user_q)))
    | none =>
      ({ st1 with chat_history :=
          st1.chat_history ++ [⟨String.toList "assistant", CHAT_INSUFFICIENT_MSG⟩] },
       .insufficient)

-- ============================================================
-- Counting lemmas for prompt-length bounds
-- ============================================================

/-- Characters that `str.strip()` can never remove. -/
def nonWS (c : Char) : Bool := !pyIsSpace c

-- ============================================================
-- Theorems
-- ============================================================

-- ============================================================
-- Lemmas about pyStrip
-- ============================================================

theorem pyStrip_infix_self (l : List Char) : pyStrip l <:+: l := by
  have h1 : pyStrip l <+: List.dropWhile pyIsSpace l :=
    List.rdropWhile_prefix pyIsSpace (List.dropWhile pyIsSpace l)
  have h2 : List.dropWhile pyIsSpace l <:+ l := List.dropWhile_suffix pyIsSpace
  exact List.IsInfix.trans ( List.IsPrefix.isInfix h1) ( List.IsSuffix.isInfix h2)

theorem pyStrip_subset {c : Char} {l : List Char} (h : c ∈ pyStrip l) : c ∈ l :=
  List.IsInfix.subset (pyStrip_infix_self l) h

theorem pyStrip_length_le (l : List Char) : (pyStrip l).length ≤ l.length :=
  List.IsInfix.length_le (pyStrip_infix_self l)

theorem dropWhile_cons_head {p : Char → Bool} {l m : List Char} {c : Char}
    (h : List.dropWhile p l = c :: m) : p c = false := by
  induction l with
  | nil => simp at h
  | cons a t ih =>
    rw [List.dropWhile_cons] at h
    by_cases hpa : p a = true
    · rw [if_pos hpa] at h
      exact ih h
    · rw [if_neg hpa] at h
      cases h
      simpa using hpa

theorem pyStrip_idem (l : List Char) : pyStrip (pyStrip l) = pyStrip l := by
  unfold pyStrip
  set p := pyIsSpace with hp
  set m := List.dropWhile p l with hm
  have hmm : List.dropWhile p m = m := by
    rw [hm]
    exact List.dropWhile_idempotent p l
  set u := List.rdropWhile p m with hu
  have hud : List.dropWhile p u = u := by
    cases hcu : u with
    | nil => simp
    | cons c t =>
      have hpref : u <+: m := by
        rw [hu]
        exact List.rdropWhile_prefix p m
      rw [hcu] at hpref
      obtain ⟨s, hs⟩ := hpref
      have hcm : List.dropWhile p m = c :: (t ++ s) := by
        rw [hmm, ← hs]
        simp
      have hpc : p c = false := dropWhile_cons_head hcm
      rw [List.dropWhile_cons, if_neg (by simp [hpc])]
  rw [hud, hu, List.rdropWhile_idempotent]

-- ============================================================
-- Lemmas about hasTriple / collapseOnce / collapseNewlines
-- ============================================================

theorem collapseOnce_cons3 (a b c : Char) (rest : List Char) :
    collapseOnce (a :: b :: c :: rest) =
      if a = '\n' && b = '\n' && c = '\n' then '\n' :: '\n' :: collapseOnce rest
      else a :: collapseOnce (b :: c :: rest) := by
  rfl

theorem hasTriple_cons3 (a b c : Char) (rest : List Char) :
    hasTriple (a :: b :: c :: rest) =
      ((a = '\n' && b = '\n' && c = '\n') || hasTriple (b :: c :: rest)) := by
  rfl

theorem hasTriple_short {l : List Char} (h : l.length ≤ 2) : hasTriple l = false := by
  match l, h with
  | [], _ => rfl
  | [a], _ => rfl
  | [a, b], _ => rfl

theorem collapseOnce_length_le (l : List Char) :
    (collapseOnce l).length ≤ l.length := by
  induction l using collapseOnce.induct with
  | case1 a b c rest h ih =>
    rw [collapseOnce_cons3, if_pos h]
    simp only [List.length_cons]
    omega
  | case2 a b c rest h ih =>
    rw [collapseOnce_cons3, if_neg h]
    simp only [List.length_cons] at ih ⊢
    omega
  | case3 l h =>
    cases l with
    | nil => simp [collapseOnce]
    | cons a t =>
      cases t with
      | nil => simp [collapseOnce]
      | cons b t2 =>
        cases t2 with
        | nil => simp [collapseOnce]
        | cons c rest => exact absurd rfl (h a b c rest)

theorem collapseOnce_length_lt {l : List Char} (h : hasTriple l = true) :
    (collapseOnce l).length < l.length := by
  induction l using collapseOnce.induct with
  | case1 a b c rest hc ih =>
    rw [collapseOnce_cons3, if_pos hc]
    have hle := collapseOnce_length_le rest
    simp only [List.length_cons]
    omega
  | case2 a b c rest hc ih =>
    rw [collapseOnce_cons3, if_neg hc]
    rw [hasTriple_cons3] at h
    have hc' : (a = '\n' && b = '\n' && c = '\n') = false := by
      simpa using hc
    rw [hc', Bool.false_or] at h
    have := ih h
    simp only [List.length_cons] at this ⊢
    omega
  | case3 l hl =>
    exfalso
    cases l with
    | nil => simp [hasTriple] at h
    | cons a t =>
      cases t with
      | nil => simp [hasTriple] at h
      | cons b t2 =>
        cases t2 with
        | nil => simp [hasTriple] at h
        | cons c rest => exact (hl a b c rest) rfl

theorem collapseOnce_subset {c : Char} {l : List Char}
    (h : c ∈ collapseOnce l) : c ∈ l := by
  induction l using collapseOnce.induct with
  | case1 a b c' rest hc ih =>
    rw [collapseOnce_cons3, if_pos hc] at h
    simp only [Bool.and_eq_true, decide_eq_true_eq] at hc
    obtain ⟨⟨ha, hb⟩, hc'⟩ := hc
    subst ha
    subst hb
    subst hc'
    simp only [List.mem_cons] at h ⊢
    rcases h with h | h | h
    · exact Or.inl h
    · exact Or.inr (Or.inl h)
    · exact Or.inr (Or.inr (Or.inr (ih h)))
  | case2 a b c' rest hc ih =>
    rw [collapseOnce_cons3, if_neg hc] at h
    simp only [List.mem_cons] at h ⊢
    rcases h with h | h
    · exact Or.inl h
    · have h2 := ih h
      simp only [List.mem_cons] at h2
      tauto
  | case3 l hl =>
    cases l with
    | nil => simpa [collapseOnce] using h
    | cons a t =>
      cases t with
      | nil => simpa [collapseOnce] using h
      | cons b t2 =>
        cases t2 with
        | nil => simpa [collapseOnce] using h
        | cons c' rest => exact absurd rfl (hl a b c' rest)

theorem collapseLoopFuel_subset {c : Char} :
    ∀ (fuel : Nat) (t : List Char), c ∈ collapseLoopFuel fuel t → c ∈ t := by
  intro fuel
  induction fuel with
  | zero =>
    intro t h
    simpa [collapseLoopFuel] using h
  | succ f ih =>
    intro t h
    rw [collapseLoopFuel] at h
    by_cases ht : hasTriple t = true
    · rw [if_pos ht] at h
      exact collapseOnce_subset (ih _ h)
    · rw [if_neg ht] at h
      exact h

theorem collapseNewlines_subset {c : Char} {t : List Char}
    (h : c ∈ collapseNewlines t) : c ∈ t :=
  collapseLoopFuel_subset t.length t h

theorem collapseLoopFuel_no_triple :
    ∀ (fuel : Nat) (t : List Char), t.length ≤ fuel →
      hasTriple (collapseLoopFuel fuel t) = false := by
  intro fuel
  induction fuel with
  | zero =>
    intro t h
    have ht : t = [] := List.length_eq_zero.mp (Nat.le_zero.mp h)
    subst ht
    simp [collapseLoopFuel, hasTriple]
  | succ f ih =>
    intro t h
    rw [collapseLoopFuel]
    by_cases ht : hasTriple t = true
    · rw [if_pos ht]
      exact ih _ (by have := collapseOnce_length_lt ht; omega)
    · rw [if_neg ht]
      simpa using ht

theorem hasTriple_collapseNewlines (t : List Char) :
    hasTriple (collapseNewlines t) = false :=
  collapseLoopFuel_no_triple t.length t (Nat.le_refl _)

theorem collapseLoopFuel_of_no_triple {t : List Char}
    (h : hasTriple t = false) : ∀ fuel, collapseLoopFuel fuel t = t := by
  intro fuel
  cases fuel with
  | zero => rfl
  | succ f => rw [collapseLoopFuel, if_neg (by simp [h])]

theorem collapseNewlines_of_no_triple {t : List Char}
    (h : hasTriple t = false) : collapseNewlines t = t :=
  collapseLoopFuel_of_no_triple h t.length

/-- `hasTriple` is exactly the substring test for three newlines. -/
theorem hasTriple_infix_iff (l : List Char) :
    hasTriple l = true ↔ ['\n', '\n', '\n'] <:+: l := by
  induction l with
  | nil =>
    constructor
    · intro h
      simp [hasTriple] at h
    · intro h
      have := List.IsInfix.length_le h
      simp at this
  | cons a t ih =>
    constructor
    · intro h
      cases t with
      | nil => simp [hasTriple] at h
      | cons b t2 =>
        cases t2 with
        | nil => simp [hasTriple] at h
        | cons c rest =>
          rw [hasTriple_cons3] at h
          simp only [Bool.or_eq_true, Bool.and_eq_true, decide_eq_true_eq] at h
          rcases h with ⟨⟨rfl, rfl⟩, rfl⟩ | h
          · exact ⟨[], rest, rfl⟩
          · exact List.infix_cons_iff.mpr (Or.inr (ih.mp h))
    · intro h
      rcases List.infix_cons_iff.mp h with hpre | hinf
      · obtain ⟨s, hs⟩ := hpre
        cases t with
        | nil =>
          have := congrArg List.length hs
          simp at this
        | cons b t2 =>
          cases t2 with
          | nil =>
            have := congrArg List.length hs
            simp at this
          | cons c rest =>
            have hs' : '\n' :: '\n' :: '\n' :: s = a :: b :: c :: rest := hs
            injection hs' with h1 hs'
            injection hs' with h2 hs'
            injection hs' with h3 hs'
            subst h1
            subst h2
            subst h3
            rw [hasTriple_cons3]
            simp
      · cases t with
        | nil =>
          have := List.IsInfix.length_le hinf
          simp at this
        | cons b t2 =>
          cases t2 with
          | nil =>
            have := List.IsInfix.length_le hinf
            simp at this
          | cons c rest =>
            rw [hasTriple_cons3]
            simp only [Bool.or_eq_true]
            exact Or.inr (ih.mpr hinf)

theorem hasTriple_pyStrip {l : List Char}
    (h : hasTriple l = false) : hasTriple (pyStrip l) = false := by
  by_contra hc
  rw [Bool.not_eq_false, hasTriple_infix_iff] at hc
  rw [← Bool.not_eq_true, hasTriple_infix_iff] at h
  exact h (List.IsInfix.trans hc (pyStrip_infix_self l))

/-- C8 core: `normalize_text` is idempotent. -/
theorem normalize_text_idem (x : List Char) :
    normalize_text (normalize_text x) = normalize_text x := by
  unfold normalize_text
  set f : Char → Char := fun c => if c = '\r' then '\n' else c with hf
  set y := pyStrip (collapseNewlines (x.map f)) with hy
  have hnoCR : ∀ c ∈ y, c ≠ '\r' := by
    intro c hc
    have h1 : c ∈ collapseNewlines (x.map f) := pyStrip_subset hc
    have h2 : c ∈ x.map f := collapseNewlines_subset h1
    obtain ⟨a, _, rfl⟩ := List.mem_map.mp h2
    rw [hf]
    by_cases ha : a = '\r' <;> simp [ha]
  have hmap : y.map f = y := by
    have hfc : ∀ c ∈ y, f c = c := by
      intro c hc
      rw [hf]
      simp [hnoCR c hc]
    calc y.map f = y.map id := List.map_congr_left hfc
    _ = y := List.map_id y
  have hnt : hasTriple y = false := by
    rw [hy]
    exact hasTriple_pyStrip (hasTriple_collapseNewlines _)
  rw [hmap, collapseNewlines_of_no_triple hnt, hy, pyStrip_idem]

theorem normalize_text_no_cr (x : List Char) :
    ∀ c ∈ normalize_text x, c ≠ '\r' := by
  intro c hc
  have h1 : c ∈ collapseNewlines (x.map fun c => if c = '\r' then '\n' else c) :=
    pyStrip_subset hc
  have h2 := collapseNewlines_subset h1
  obtain ⟨a, _, rfl⟩ := List.mem_map.mp h2
  by_cases ha : a = '\r' <;> simp [ha]

theorem normalize_text_no_triple (x : List Char) :
    hasTriple (normalize_text x) = false :=
  hasTriple_pyStrip (hasTriple_collapseNewlines _)

theorem collapseCount_add3 (k : Nat) : collapseCount (k + 3) = 2 + collapseCount k := by
  rfl

theorem collapseCount_le (k : Nat) : collapseCount k ≤ k := by
  induction k using Nat.strong_induction_on with
  | _ k ih =>
    by_cases h3 : 3 ≤ k
    · obtain ⟨m, rfl⟩ : ∃ m, k = m + 3 := ⟨k - 3, by omega⟩
      have := ih m (by omega)
      rw [collapseCount_add3]
      omega
    · have hk : k = 0 ∨ k = 1 ∨ k = 2 := by omega
      rcases hk with rfl | rfl | rfl <;> decide

theorem collapseCount_lt {k : Nat} (h : 3 ≤ k) : collapseCount k < k := by
  obtain ⟨m, rfl⟩ : ∃ m, k = m + 3 := ⟨k - 3, by omega⟩
  have := collapseCount_le m
  rw [collapseCount_add3]
  omega

theorem collapseCount_ge2 {k : Nat} (h : 2 ≤ k) : 2 ≤ collapseCount k := by
  by_cases h3 : 3 ≤ k
  · obtain ⟨m, rfl⟩ : ∃ m, k = m + 3 := ⟨k - 3, by omega⟩
    rw [collapseCount_add3]
    omega
  · have hk : k = 2 := by omega
    subst hk
    decide

theorem replicate_nl_cons3 (m : Nat) :
    List.replicate (m + 3) '\n' = '\n' :: '\n' :: '\n' :: List.replicate m '\n' := by
  simp [List.replicate_succ]

theorem hasTriple_replicate {k : Nat} (h : 3 ≤ k) :
    hasTriple (List.replicate k '\n') = true := by
  obtain ⟨m, rfl⟩ : ∃ m, k = m + 3 := ⟨k - 3, by omega⟩
  rw [replicate_nl_cons3, hasTriple_cons3]
  simp

theorem collapseOnce_replicate (k : Nat) :
    collapseOnce (List.replicate k '\n') = List.replicate (collapseCount k) '\n' := by
  induction k using Nat.strong_induction_on with
  | _ k ih =>
    by_cases h3 : 3 ≤ k
    · obtain ⟨m, rfl⟩ : ∃ m, k = m + 3 := ⟨k - 3, by omega⟩
      rw [replicate_nl_cons3, collapseOnce_cons3, if_pos (by simp), ih m (by omega),
        collapseCount_add3]
      have h2 : 2 + collapseCount m = (collapseCount m + 1) + 1 := by omega
      rw [h2]
      simp [List.replicate_succ]
    · have hk : k = 0 ∨ k = 1 ∨ k = 2 := by omega
      rcases hk with rfl | rfl | rfl <;> decide

theorem collapseLoopFuel_fuel_ge :
    ∀ (fuel : Nat) (t : List Char), t.length ≤ fuel →
      collapseLoopFuel fuel t = collapseNewlines t := by
  intro fuel
  induction fuel using Nat.strong_induction_on with
  | _ fuel ih =>
    intro t h
    by_cases ht : hasTriple t = true
    · have hlen : 1 ≤ t.length := by
        cases t with
        | nil => simp [hasTriple] at ht
        | cons a b => simp
      obtain ⟨f, rfl⟩ : ∃ f, fuel = f + 1 := ⟨fuel - 1, by omega⟩
      obtain ⟨m, hm⟩ : ∃ m, t.length = m + 1 := ⟨t.length - 1, by omega⟩
      have hlt := collapseOnce_length_lt ht
      have hRHS : collapseNewlines t = collapseLoopFuel m (collapseOnce t) := by
        unfold collapseNewlines
        rw [hm, collapseLoopFuel, if_pos ht]
      rw [collapseLoopFuel, if_pos ht, ih f (by omega) _ (by omega), hRHS,
        ih m (by omega) _ (by omega)]
    · have ht' : hasTriple t = false := by simpa using ht
      rw [collapseLoopFuel_of_no_triple ht', collapseNewlines_of_no_triple ht']

theorem collapseNewlines_step {t : List Char} (h : hasTriple t = true) :
    collapseNewlines t = collapseNewlines (collapseOnce t) := by
  have hlen : 1 ≤ t.length := by
    cases t with
    | nil => simp [hasTriple] at h
    | cons a b => simp
  obtain ⟨m, hm⟩ : ∃ m, t.length = m + 1 := ⟨t.length - 1, by omega⟩
  have hlt := collapseOnce_length_lt h
  unfold collapseNewlines
  rw [hm, collapseLoopFuel, if_pos h]
  rw [collapseLoopFuel_fuel_ge m _ (by omega)]
  rfl

/-- A run of three or more newlines collapses to exactly two. -/
theorem collapseNewlines_replicate :
    ∀ k, 3 ≤ k → collapseNewlines (List.replicate k '\n') = ['\n', '\n'] := by
  intro k
  induction k using Nat.strong_induction_on with
  | _ k ih =>
    intro h3
    have hstep : collapseNewlines (List.replicate k '\n')
        = collapseNewlines (List.replicate (collapseCount k) '\n') := by
      rw [collapseNewlines_step (hasTriple_replicate h3), collapseOnce_replicate]
    by_cases hc : 3 ≤ collapseCount k
    · rw [hstep]
      exact ih _ (collapseCount_lt h3) hc
    · have h2 : collapseCount k = 2 := by
        have := collapseCount_ge2 (show 2 ≤ k by omega)
        omega
      rw [hstep, h2, collapseNewlines_of_no_triple (hasTriple_short (by simp))]
      decide

-- ============================================================
-- Lemmas about trim_text
-- ============================================================

theorem trim_text_of_le {x : List Char} {cap : Nat} (h : x.length ≤ cap) :
    trim_text x cap = x := by
  unfold trim_text
  rw [if_pos h]

theorem trim_text_of_gt {x : List Char} {cap : Nat} (h : cap < x.length) :
    trim_text x cap = x.take cap ++ TRIM_MARKER := by
  unfold trim_text
  rw [if_neg (by omega)]

theorem trim_text_length_le (x : List Char) (cap : Nat) :
    (trim_text x cap).length ≤ cap + TRIM_MARKER.length := by
  unfold trim_text
  by_cases h : x.length ≤ cap
  · rw [if_pos h]
    omega
  · rw [if_neg h]
    simp only [List.length_append, List.length_take]
    omega

theorem extract_parts_eq_spec :
    ∀ (pages : List PageResult) (i : Nat), extract_parts i pages = extract_parts_spec i pages := by
  intro pages
  induction pages with
  | nil =>
    intro i
    rfl
  | cons p ps ih =>
    intro i
    rw [extract_parts]
    unfold extract_parts_spec
    rw [List.enumFrom_cons, List.filterMap_cons]
    by_cases h : pageText p = []
    · rw [if_pos h]
      simp only [h, if_pos rfl]
      exact ih (i + 1)
    · rw [if_neg h]
      simp only [if_neg h]
      rw [ih (i + 1)]
      rfl

theorem extract_parts_append (xs ys : List PageResult) :
    ∀ i, extract_parts i (xs ++ ys)
      = extract_parts i xs ++ extract_parts (i + xs.length) ys := by
  induction xs with
  | nil =>
    intro i
    simp [extract_parts]
  | cons p ps ih =>
    intro i
    rw [List.cons_append, extract_parts, extract_parts]
    by_cases h : pageText p = []
    · rw [if_pos h, if_pos h, ih (i + 1)]
      simp only [List.length_cons]
      ring_nf
    · rw [if_neg h, if_neg h, ih (i + 1)]
      simp only [List.length_cons, List.cons_append]
      ring_nf

/-- A raising page contributes exactly what an empty page contributes. -/
theorem pageText_err_eq_empty : pageText PageResult.err = pageText (PageResult.ok (some [])) := by
  rfl

theorem countCalls_callTrace : ∀ (n a : Nat), countCalls (callTrace a n) = n + 1 := by
  intro n
  induction n with
  | zero =>
    intro a
    rfl
  | succ m ih =>
    intro a
    show countCalls (.call a :: .delay :: callTrace (a + 1) m) = m + 2
    unfold countCalls at ih ⊢
    rw [List.countP_cons, List.countP_cons, ih (a + 1)]
    simp [isCall]

theorem gwrAux_calls_le {E : Type} (p : Nat → Except E (Option (List Char))) :
    ∀ (fuel a : Nat), countCalls (gwrAux p a fuel).2 ≤ fuel + 1 := by
  intro fuel
  induction fuel with
  | zero =>
    intro a
    unfold gwrAux
    cases p a <;> simp [countCalls, List.countP_cons, isCall]
  | succ f ih =>
    intro a
    unfold gwrAux
    cases p a with
    | ok t => simp [countCalls, List.countP_cons, isCall]
    | error e =>
      have h := ih (a + 1)
      simp only [countCalls] at h ⊢
      simp [List.countP_cons, isCall]
      omega

theorem gwrAux_success {E : Type} (p : Nat → Except E (Option (List Char))) :
    ∀ (k fuel a : Nat) (v : Option (List Char)), k ≤ fuel →
      (∀ i, i < k → ∃ e, p (a + i) = .error e) →
      p (a + k) = .ok v →
      gwrAux p a fuel = (.ok (v.getD []), callTrace a k) := by
  intro k
  induction k with
  | zero =>
    intro fuel a v _ _ hk
    simp only [Nat.add_zero] at hk
    cases fuel with
    | zero =>
      unfold gwrAux
      rw [hk]
      rfl
    | succ f =>
      unfold gwrAux
      rw [hk]
      rfl
  | succ m ih =>
    intro fuel a v hle hfail hk
    obtain ⟨f, rfl⟩ : ∃ f, fuel = f + 1 := ⟨fuel - 1, by omega⟩
    obtain ⟨e0, he0⟩ := hfail 0 (by omega)
    simp only [Nat.add_zero] at he0
    unfold gwrAux
    rw [he0]
    have hrec : gwrAux p (a + 1) f = (.ok (v.getD []), callTrace (a + 1) m) := by
      apply ih f (a + 1) v (by omega)
      · intro i hi
        obtain ⟨e, he⟩ := hfail (i + 1) (by omega)
        exact ⟨e, by rw [show a + 1 + i = a + (i + 1) from by omega]; exact he⟩
      · rw [show a + 1 + m = a + (m + 1) from by omega]
        exact hk
    rw [hrec]
    rfl

theorem gwrAux_all_fail {E : Type} (p : Nat → Except E (Option (List Char))) :
    ∀ (fuel a : Nat) (e : E),
      (∀ i, i < fuel → ∃ e', p (a + i) = .error e') →
      p (a + fuel) = .error e →
      gwrAux p a fuel = (.error e, callTrace a fuel) := by
  intro fuel
  induction fuel with
  | zero =>
    intro a e _ hk
    simp only [Nat.add_zero] at hk
    unfold gwrAux
    rw [hk]
    rfl
  | succ f ih =>
    intro a e hfail hk
    obtain ⟨e0, he0⟩ := hfail 0 (by omega)
    simp only [Nat.add_zero] at he0
    unfold gwrAux
    rw [he0]
    have hrec : gwrAux p (a + 1) f = (.error e, callTrace (a + 1) f) := by
      apply ih (a + 1) e
      · intro i hi
        obtain ⟨e', he'⟩ := hfail (i + 1) (by omega)
        exact ⟨e', by rw [show a + 1 + i = a + (i + 1) from by omega]; exact he'⟩
      · rw [show a + 1 + f = a + (f + 1) from by omega]
        exact hk
    rw [hrec]
    rfl

theorem countP_nonWS_dropWhile (l : List Char) :
    List.countP nonWS (List.dropWhile pyIsSpace l) = List.countP nonWS l := by
  conv_rhs => rw [← List.takeWhile_append_dropWhile pyIsSpace l]
  rw [List.countP_append]
  have h0 : List.countP nonWS (List.takeWhile pyIsSpace l) = 0 := by
    rw [List.countP_eq_zero]
    intro a ha
    have hws := List.mem_takeWhile_imp ha
    simp [nonWS, hws]
  omega

theorem countP_nonWS_pyStrip (l : List Char) :
    List.countP nonWS (pyStrip l) = List.countP nonWS l := by
  unfold pyStrip
  rw [List.rdropWhile, List.countP_reverse, countP_nonWS_dropWhile, List.countP_reverse,
    countP_nonWS_dropWhile]

theorem pyStrip_length_ge_countP (l : List Char) :
    List.countP nonWS l ≤ (pyStrip l).length := by
  rw [← countP_nonWS_pyStrip]
  exact List.countP_le_length nonWS

theorem countP_nonWS_replicate (n : Nat) :
    List.countP nonWS (List.replicate n 'a') = n := by
  induction n with
  | zero => rfl
  | succ m ih =>
    rw [List.replicate_succ, List.countP_cons, ih]
    have ha : nonWS 'a' = true := by decide
    rw [ha, if_pos rfl]

-- ============================================================
-- Supporting lemmas for the claims
-- ============================================================

theorem extract_parts_cons (i : Nat) (p : PageResult) (ps : List PageResult) :
    extract_parts i (p :: ps) =
      if pageText p = [] then extract_parts (i + 1) ps
      else (pageMark i ++ pageText p) :: extract_parts (i + 1) ps := by
  rfl

theorem last_turns_eq_drop (h : List ChatTurn) :
    last_turns h = h.drop (h.length - 6) := by
  unfold last_turns
  by_cases hh : h = []
  · subst hh
    simp
  · rw [if_neg hh]

theorem last_turns_drop (h : List ChatTurn) :
    last_turns (h.drop (h.length - 6)) = last_turns h := by
  rw [last_turns_eq_drop, last_turns_eq_drop, List.length_drop]
  have h0 : h.length - (h.length - 6) - 6 = 0 := by omega
  rw [h0, List.drop_zero]

theorem set_file_ref_none_eq {st : SessionState} (h : st.file_ref = none) :
    { st with file_ref := none } = st := by
  cases st
  simp only at h
  rw [← h]

-- ============================================================
-- The claims
-- ============================================================

/-- C3: `trim_text` returns short inputs unchanged; longer inputs are cut to
the first `cap` characters followed by the fixed marker; the result length is
at most `cap` plus the marker length; and `trim_text` leaves
`normalize_text x` unchanged whenever the normalized text fits the cap. -/
theorem C3_trim_text (x : List Char) (cap : Nat) :
    (x.length ≤ cap → trim_text x cap = x)
  ∧ (cap < x.length → trim_text x cap = x.take cap ++ TRIM_MARKER)
  ∧ (trim_text x cap).length ≤ cap + TRIM_MARKER.length
  ∧ ((normalize_text x).length ≤ cap → trim_text (normalize_text x) cap = normalize_text x) :=
  ⟨fun h => trim_text_of_le h,
   fun h => trim_text_of_gt h,
   trim_text_length_le x cap,
   fun h => trim_text_of_le h⟩

theorem C3_trim_text_witness :
    ((String.toList "abc").length ≤ 5 ∧ trim_text (String.toList "abc") 5 = String.toList "abc")
  ∧ (2 < (String.toList "abc").length
      ∧ trim_text (String.toList "abc") 2 = String.toList "ab" ++ TRIM_MARKER) :=
  ⟨⟨by decide, (C3_trim_text (String.toList "abc") 5).1 (by decide)⟩,
   ⟨by decide, by
      have h := (C3_trim_text (String.toList "abc") 2).2.1 (by decide)
      rw [h]
      rfl⟩⟩

/-- C8: `normalize_text` leaves no carriage return in its output, leaves no
run of three or more newlines (a pure run of `k ≥ 3` newlines collapses to
exactly two), returns stripped text, and is idempotent:
`normalize_text (normalize_text x) = normalize_text x` for every input. -/
theorem C8_normalize_text (x : List Char) :
    (∀ c ∈ normalize_text x, c ≠ '\r')
  ∧ hasTriple (normalize_text x) = false
  ∧ (∀ k, 3 ≤ k → collapseNewlines (List.replicate k '\n') = ['\n', '\n'])
  ∧ pyStrip (normalize_text x) = normalize_text x
  ∧ normalize_text (normalize_text x) = normalize_text x :=
  ⟨normalize_text_no_cr x,
   normalize_text_no_triple x,
   fun k hk => collapseNewlines_replicate k hk,
   pyStrip_idem _,
   normalize_text_idem x⟩

theorem C8_normalize_text_witness :
    (3 ≤ 5 ∧ collapseNewlines (List.replicate 5 '\n') = ['\n', '\n'])
  ∧ normalize_text (normalize_text (String.toList "a\r\n\n\n\nb ")) =
      normalize_text (String.toList "a\r\n\n\n\nb ") :=
  ⟨⟨by decide, (C8_normalize_text []).2.2.1 5 (by decide)⟩,
   (C8_normalize_text (String.toList "a\r\n\n\n\nb ")).2.2.2.2⟩

/-- C9: the chat prompt builder uses only the most recent 6 turns: the
history window is `chat_history[-6:]` (the last 6 turns, in order), its
length is exactly 6 as soon as the transcript has at least 6 turns, and the
built prompt is unchanged when every earlier turn is removed from the
transcript. -/
theorem C9_chat_window (doc_text user_q : List Char) (chat_history : List ChatTurn) :
    last_turns chat_history = chat_history.drop (chat_history.length - 6)
  ∧ history_txt chat_history = List.intercalate (String.toList "\n")
      ((chat_history.drop (chat_history.length - 6)).map fmt_turn)
  ∧ (6 ≤ chat_history.length → (chat_history.drop (chat_history.length - 6)).length = 6)
  ∧ build_prompt_chat doc_text chat_history user_q
      = build_prompt_chat doc_text (chat_history.drop (chat_history.length - 6)) user_q := by
  have hht : history_txt (chat_history.drop (chat_history.length - 6))
      = history_txt chat_history := by
    unfold history_txt
    rw [last_turns_drop]
  refine ⟨last_turns_eq_drop chat_history, ?_, ?_, ?_⟩
  · unfold history_txt
    rw [last_turns_eq_drop]
  · intro h6
    rw [List.length_drop]
    omega
  · unfold build_prompt_chat
    rw [hht]

theorem C9_chat_window_witness :
    6 ≤ (List.replicate 8 (⟨String.toList "user", []⟩ : ChatTurn)).length
  ∧ ((List.replicate 8 (⟨String.toList "user", []⟩ : ChatTurn)).drop
      ((List.replicate 8 (⟨String.toList "user", []⟩ : ChatTurn)).length - 6)).length = 6 :=
  ⟨by decide,
   (C9_chat_window [] [] (List.replicate 8 ⟨String.toList "user", []⟩)).2.2.1 (by decide)⟩

/-- C5: the extractor processes pages in order and its `parts` list is
exactly the non-empty stripped per-page texts, each prefixed with its page
marker, in page order (`extract_parts_spec`); a page whose extraction raises
contributes exactly what an empty page contributes (degrades, never aborts);
the output around a failing page `i` is the joined parts of all other pages,
with page `i` omitted; and the reported page count is always the full number
of pages, failing page included. -/
theorem C5_extract_text_from_pdf (pages pre post : List PageResult) (i : Nat) :
    (extract_text_from_pdf pages).2 = pages.length
  ∧ extract_parts i pages = extract_parts_spec i pages
  ∧ extract_text_from_pdf (pre ++ PageResult.err :: post)
      = extract_text_from_pdf (pre ++ PageResult.ok (some []) :: post)
  ∧ (extract_text_from_pdf (pre ++ PageResult.err :: post)).1
      = pyStrip (List.intercalate (String.toList "\n\n")
          (extract_parts 0 pre ++ extract_parts (pre.length + 1) post))
  ∧ (extract_text_from_pdf (pre ++ PageResult.err :: post)).2
      = pre.length + 1 + post.length := by
  have hparts : ∀ j, extract_parts j (pre ++ PageResult.err :: post)
      = extract_parts j pre ++ extract_parts (j + pre.length + 1) post := by
    intro j
    rw [extract_parts_append, extract_parts_cons]
    have hempty : pageText PageResult.err = [] := rfl
    rw [if_pos hempty]
  have hparts' : ∀ j, extract_parts j (pre ++ PageResult.ok (some []) :: post)
      = extract_parts j pre ++ extract_parts (j + pre.length + 1) post := by
    intro j
    rw [extract_parts_append, extract_parts_cons]
    have hempty : pageText (PageResult.ok (some [])) = [] := rfl
    rw [if_pos hempty]
  refine ⟨rfl, extract_parts_eq_spec pages i, ?_, ?_, ?_⟩
  · unfold extract_text_from_pdf
    rw [hparts 0, hparts' 0]
    simp
  · unfold extract_text_from_pdf
    rw [hparts 0]
    simp
  · unfold extract_text_from_pdf
    simp only [List.length_append, List.length_cons]
    omega

set_option maxRecDepth 100000 in
/-- C4 counterexample: on the text path with cap 24000 and a document whose
extracted text has more than 24000 characters, the prompt actually sent (the
output of `build_prompt_summary` on the trimmed text) is strictly longer
than `24000 + TRIM_MARKER.length`, because the fixed rule/option/section
templates are prepended to the document text. -/
theorem C4_prompt_length_counterexample :
    ¬ ((build_prompt_summary (trim_text (List.replicate 24001 'a') 24000)).length
        ≤ 24000 + TRIM_MARKER.length) := by
  intro hle
  have htrim : trim_text (List.replicate 24001 'a') 24000
      = List.replicate 24000 'a' ++ TRIM_MARKER := by
    rw [trim_text_of_gt (by rw [List.length_replicate]; omega), List.take_replicate]
    norm_num
  rw [htrim] at hle
  unfold build_prompt_summary at hle
  have hlow := pyStrip_length_ge_countP
    (SUMMARY_SCAFFOLD ++ (List.replicate 24000 'a' ++ TRIM_MARKER) ++ String.toList "\n")
  rw [List.countP_append, List.countP_append, List.countP_append,
    countP_nonWS_replicate] at hlow
  have hM : TRIM_MARKER.length = 27 := by decide
  have hcM : List.countP nonWS TRIM_MARKER = 21 := by decide
  have hcS : 7 ≤ List.countP nonWS SUMMARY_SCAFFOLD := by decide
  omega

/-- C4 (amended): on the text path with cap 24000, the document text embedded
in the prompt has length at most `24000 + TRIM_MARKER.length`, and the final
prompt sent to the generation client is at most the fixed template overhead
(`SUMMARY_SCAFFOLD.length + 1`) plus that bound. -/
theorem C4_prompt_length_amended (t : List Char) :
    (trim_text t 24000).length ≤ 24000 + TRIM_MARKER.length
  ∧ (build_prompt_summary (trim_text t 24000)).length
      ≤ (SUMMARY_SCAFFOLD.length + 1) + (24000 + TRIM_MARKER.length) := by
  refine ⟨trim_text_length_le t 24000, ?_⟩
  unfold build_prompt_summary
  have h1 := pyStrip_length_le
    (SUMMARY_SCAFFOLD ++ trim_text t 24000 ++ String.toList "\n")
  have h2 := trim_text_length_le t 24000
  simp only [List.length_append] at h1
  have h3 : (String.toList "\n").length = 1 := by decide
  omega

/-- C2: `generate_with_retry` makes at most `retries + 1` provider calls; if
the first `k` calls fail and call `k ≤ retries` succeeds with text `v`, the
result is that success (with `None` text returned as `""`), the trace is
exactly calls `0..k` with one fixed delay between consecutive calls, and
exactly `k + 1` calls are made with no further attempt; if all `retries + 1`
calls fail, the exception of the final attempt is the one raised, again
after exactly `retries + 1` calls. -/
theorem C2_generate_with_retry {E : Type} (p : Nat → Except E (Option (List Char)))
    (retries : Nat) :
    countCalls (generate_with_retry p retries).2 ≤ retries + 1
  ∧ (∀ k v, k ≤ retries → (∀ i, i < k → ∃ e, p i = .error e) → p k = .ok v →
      generate_with_retry p retries = (.ok (v.getD []), callTrace 0 k)
        ∧ countCalls (callTrace 0 k) = k + 1)
  ∧ (∀ e, (∀ i, i < retries → ∃ e', p i = .error e') → p retries = .error e →
      generate_with_retry p retries = (.error e, callTrace 0 retries)
        ∧ countCalls (callTrace 0 retries) = retries + 1) := by
  refine ⟨gwrAux_calls_le p retries 0, ?_, ?_⟩
  · intro k v hk hfail hok
    constructor
    · apply gwrAux_success p k retries 0 v hk
      · intro i hi
        simpa using hfail i hi
      · simpa using hok
    · exact countCalls_callTrace k 0
  · intro e hfail hlast
    constructor
    · apply gwrAux_all_fail p retries 0 e
      · intro i hi
        simpa using hfail i hi
      · simpa using hlast
    · exact countCalls_callTrace retries 0

theorem C2_generate_with_retry_witness :
    (generate_with_retry
        (fun n => if n = 0 then .error () else .ok (some (String.toList "ok")))
        1
      = (.ok (String.toList "ok"), [.call 0, .delay, .call 1])
      ∧ countCalls [GenEvent.call 0, GenEvent.delay, GenEvent.call 1] = 2)
  ∧ (generate_with_retry (fun n => (.error n : Except Nat (Option (List Char)))) 1
      = (.error 1, [.call 0, .delay, .call 1])) :=
  ⟨(C2_generate_with_retry
      (fun n => if n = 0 then .error () else .ok (some (String.toList "ok"))) 1).2.1
      1 (some (String.toList "ok")) (by decide)
      (fun i hi => ⟨(), by interval_cases i; rfl⟩) rfl,
   ((C2_generate_with_retry (fun n => (.error n : Except Nat (Option (List Char)))) 1).2.2
      1 (fun i hi => ⟨i, rfl⟩) rfl).1⟩

/-- C1: with the session's parsed text equal to the normalized extracted
text of the document, the upload step attempts an upload (recording a
handle, from which alone a file-mode request can be built) exactly when that
text is shorter than `MIN_TEXT_CHARS` and the fallback flag is enabled and
no handle is recorded; as soon as the extracted text reaches
`MIN_TEXT_CHARS`, the upload step is a no-op for every fallback setting and
the summary action issues a text request, never a file request. -/
theorem C1_upload_guard (st : SessionState) (pages : List PageResult)
    (allow : Bool) (upload_result : Option FileRef)
    (hp : st.parsed_text = normalize_text (extract_text_from_pdf pages).1) :
    ((upload_step allow upload_result st).2 = true ↔
      ((normalize_text (extract_text_from_pdf pages).1).length < MIN_TEXT_CHARS
        ∧ allow = true ∧ st.file_ref = none))
  ∧ (MIN_TEXT_CHARS ≤ (normalize_text (extract_text_from_pdf pages).1).length →
      upload_step allow upload_result st = (st, false)
      ∧ ∀ max_chars, summary_action max_chars st
          = .request (.textRequest (build_prompt_summary (trim_text st.parsed_text max_chars)))) := by
  constructor
  · unfold upload_step
    by_cases h : st.parsed_text.length < MIN_TEXT_CHARS ∧ allow = true ∧ st.file_ref = none
    · rw [if_pos h]
      rw [hp] at h
      exact ⟨fun _ => h, fun _ => rfl⟩
    · rw [if_neg h]
      constructor
      · intro hh
        exact absurd hh (by simp)
      · intro hr
        rw [← hp] at hr
        exact absurd hr h
  · intro hge
    rw [← hp] at hge
    have hne : st.parsed_text ≠ [] := by
      intro hnil
      rw [hnil] at hge
      exact absurd hge (by decide)
    constructor
    · unfold upload_step
      rw [if_neg (fun hcon => absurd hcon.1 (Nat.not_lt.mpr hge))]
    · intro mc
      unfold summary_action
      rw [if_pos ⟨hne, hge⟩]

theorem C1_upload_guard_witness :
    (upload_step true (some ⟨0⟩)
      { last_uploaded := some (String.toList "a.pdf"),
        parsed_text :=
          normalize_text (extract_text_from_pdf [PageResult.ok (some (String.toList "hi"))]).1,
        n_pages := 1, file_ref := none, chat_history := [] }).2 = true :=
  ((C1_upload_guard _ [PageResult.ok (some (String.toList "hi"))] true (some ⟨0⟩) rfl).1).mpr
    ⟨by decide, rfl, rfl⟩

/-- C6: with an empty extracted text (0 chars, below `MIN_TEXT_CHARS`) and
the fallback flag disabled, no upload is attempted and every generation
action — summary, quiz and follow-up — reports the insufficient-input
condition as a normal outcome and issues no generation request; the chat tab
additionally records the canned guidance message as the assistant turn. -/
theorem C6_insufficient_no_remote (st : SessionState) (upload_result : Option FileRef)
    (max_chars num_q : Nat) (user_q : List Char)
    (hempty : st.parsed_text = []) (href : st.file_ref = none) :
    upload_step false upload_result st = (st, false)
  ∧ summary_action max_chars st = .insufficient
  ∧ edu_qa_action max_chars num_q st = .insufficient
  ∧ (chat_action max_chars st user_q).2 = .insufficient
  ∧ (chat_action max_chars st user_q).1.chat_history
      = st.chat_history ++ [⟨String.toList "user", user_q⟩,
          ⟨String.toList "assistant", CHAT_INSUFFICIENT_MSG⟩] := by
  cases st with
  | mk lu pt np fr ch =>
    change pt = [] at hempty
    change fr = none at href
    subst hempty
    subst href
    refine ⟨?_, ?_, ?_, ?_, ?_⟩
    · unfold upload_step
      rw [if_neg (fun hcon => absurd hcon.2.1 (by simp))]
    · unfold summary_action
      rw [if_neg (fun hcon => hcon.1 rfl)]
    · unfold edu_qa_action
      rw [if_neg (fun hcon => hcon.1 rfl)]
    · unfold chat_action
      simp
    · unfold chat_action
      simp

theorem C6_insufficient_no_remote_witness :
    summary_action 24000 ⟨none, [], 0, none, []⟩ = .insufficient
  ∧ (chat_action 24000 ⟨none, [], 0, none, []⟩ (String.toList "q")).2 = .insufficient :=
  ⟨(C6_insufficient_no_remote ⟨none, [], 0, none, []⟩ none 24000 7 (String.toList "q")
      rfl rfl).2.1,
   (C6_insufficient_no_remote ⟨none, [], 0, none, []⟩ none 24000 7 (String.toList "q")
      rfl rfl).2.2.2.1⟩

/-- C7: a failed upload records no handle (`upload_pdf_to_gemini_file_api`
returns `None`, which is stored), the state still satisfies the upload
guard, so the next rerun of the same action path re-attempts the upload;
conversely, while a handle exists the upload step never attempts another
upload and leaves the state unchanged. -/
theorem C7_upload_failure (st : SessionState) (res2 : Option FileRef)
    (hins : st.parsed_text.length < MIN_TEXT_CHARS) (href : st.file_ref = none) :
    (∀ cr wr : Bool, (upload_pdf_to_gemini_file_api cr wr none).1 = none)
  ∧ upload_step true none st = (st, true)
  ∧ (upload_step true res2 ((upload_step true none st).1)).2 = true
  ∧ (∀ (st2 : SessionState) (r : FileRef) (allow : Bool) (res : Option FileRef),
      st2.file_ref = some r → upload_step allow res st2 = (st2, false)) := by
  have hguard : st.parsed_text.length < MIN_TEXT_CHARS ∧ true = true ∧ st.file_ref = none :=
    ⟨hins, rfl, href⟩
  have hstep : upload_step true none st = (st, true) := by
    unfold upload_step
    rw [if_pos hguard, set_file_ref_none_eq href]
  refine ⟨?_, hstep, ?_, ?_⟩
  · intro cr wr
    cases cr <;> cases wr <;> rfl
  · rw [hstep]
    unfold upload_step
    rw [if_pos hguard]
  · intro st2 r allow res h2
    unfold upload_step
    rw [if_neg (by intro hcon; rw [h2] at hcon; exact absurd hcon.2.2 (by simp))]

theorem C7_upload_failure_witness :
    upload_step true none ⟨none, [], 0, none, []⟩ = (⟨none, [], 0, none, []⟩, true) :=
  (C7_upload_failure ⟨none, [], 0, none, []⟩ none (by decide) rfl).2.1

/-- C10 (code bug): when the temp file is created and written successfully it
is removed on every exit (success and upload failure alike); but when
`tmp.write` raises after `NamedTemporaryFile` has created the file,
`tmp_path` is still `None`, the finally-block guard
`if tmp_path and os.path.exists(tmp_path)` is false, and the temp file
survives the call — contradicting guaranteed deletion on all exit paths. -/
theorem C10_temp_file_cleanup :
    (∀ res : Option FileRef, (upload_pdf_to_gemini_file_api true true res).2 = false)
  ∧ (upload_pdf_to_gemini_file_api true false none).1 = none
  ∧ (upload_pdf_to_gemini_file_api true false none).2 = true := by
  refine ⟨?_, rfl, rfl⟩
  intro res
  cases res <;> rfl
